import Mathlib

/-!
Verification of the multi-channel audio controller of `nage-rs`
(`src/core/audio.rs`), shallowly embedded in Lean 4.

The interpreter's imperative effects on the Playback Backend are modelled
as an explicit trace: each operation returns, alongside its result, the
list of backend calls it issued, in issue order.  Components outside
`src/` (the manifest, the player profile, the text-templating layer and
the playback backend) are modelled from the specification, as noted on
each definition.
-/

namespace Nage

/-- Modelled from the spec: a `Duration` carrying integer milliseconds.
All durations this subsystem manipulates are created with
`Duration::from_millis` and read back with `as_millis`, so millisecond
granularity is faithful. -/
structure Duration where
  millis : Nat
deriving DecidableEq, Repr

/-- Mirrors `Duration::from_millis`. -/
def Duration.from_millis (ms : Nat) : Duration := ⟨ms⟩

/-- Mirrors `Duration::as_millis`. -/
def Duration.as_millis (d : Duration) : Nat := d.millis

/-- Modelled from the spec: a decoded, replayable sound buffer
(`playback_rs::Song`); its content is opaque to this subsystem, so it is
represented by an abstract identifier. -/
structure Song where
  data : Nat
deriving DecidableEq, Repr

/-- Modelled from the spec: the Playback Backend's per-channel observable
state, read through the accessors `is_playing`, `has_current_song`,
`has_next_song` and `get_playback_position`
(`playback_rs::Player`). -/
structure AudioPlayer where
  is_playing : Bool
  has_current_song : Bool
  has_next_song : Bool
  get_playback_position : Option (Duration × Duration)
deriving DecidableEq, Repr

/-- A single imperative call issued to the Playback Backend by the
interpreter.  Transport errors returned by the backend are discarded by
the source (`let _ = ...`), so calls carry no result. -/
inductive BackendCall where
  | seek (d : Duration)
  | skip
  | set_playing (b : Bool)
  | play_song_next (sfx : Song) (seek : Option Duration)
  | play_song_now (sfx : Song) (seek : Option Duration)
  | set_playback_speed (v : Rat)
deriving DecidableEq, Repr

/-- Whether a backend call starts a song (`play_song_next` or
`play_song_now`). -/
def BackendCall.isPlayCall : BackendCall → Bool
  | .play_song_next _ _ => true
  | .play_song_now _ _ => true
  | _ => false

/-- Whether a backend call is one of the mode transport verbs `skip` or
`set_playing`. -/
def BackendCall.isTransportVerb : BackendCall → Bool
  | .skip => true
  | .set_playing _ => true
  | _ => false

/-- `AudioPlayers` from `audio.rs`: a map of channel names to audio
player instances.  The Rust `HashMap` is embedded as an association list
in its native iteration order; key uniqueness (a `HashMap` invariant) is
assumed where a claim needs it. -/
def AudioPlayers : Type := List (String × AudioPlayer)

/-- `Sounds` from `audio.rs`: a map of song names to decoded song
content (`BTreeMap` embedded as an association list). -/
def Sounds : Type := List (String × Song)

/-- `Audio` from `audio.rs`: the container for players and sounds. -/
structure Audio where
  players : List (String × AudioPlayer)
  sounds : List (String × Song)
deriving DecidableEq, Repr

/-- `SoundActionMode` (declared in `core/choice.rs`, outside `src/`).
Modelled from the spec: one of Queue, Overwrite, Passive, Skip, Play,
Pause. -/
inductive SoundActionMode where
  | Queue
  | Overwrite
  | Passive
  | Skip
  | Play
  | Pause
deriving DecidableEq, Repr

/-- Modelled from the spec: templates are opaque values that yield their
concrete value when evaluated against the Text Context, and evaluation
may fail.  Since `accept` evaluates each template exactly once against a
single fixed Text Context, a template (together with that context) is
represented by its evaluation outcome; `fill` and `get_value` return
it. -/
def Template (α : Type) : Type := Except String α

/-- Equality of `Except` values is decidable when both components' is. -/
def exceptDecEq {ε α : Type} [DecidableEq ε] [DecidableEq α] :
    (a b : Except ε α) → Decidable (a = b)
  | .ok a, .ok b =>
    if h : a = b then .isTrue (by rw [h]) else .isFalse (by simp [h])
  | .ok _, .error _ => .isFalse (by simp)
  | .error _, .ok _ => .isFalse (by simp)
  | .error e, .error f =>
    if h : e = f then .isTrue (by rw [h]) else .isFalse (by simp [h])

instance {ε α : Type} [DecidableEq ε] [DecidableEq α] : DecidableEq (Except ε α) :=
  exceptDecEq

instance {α : Type} [DecidableEq α] : DecidableEq (Template α) :=
  exceptDecEq

/-- `SoundAction` (declared in `core/choice.rs`, outside `src/`).
Modelled from the spec: a templated channel, an optional templated asset
name, an optional templated seek position in milliseconds, a required
templated mode, and an optional templated playback speed. -/
structure SoundAction where
  channel : Template String
  name : Option (Template String)
  seek : Option (Template Nat)
  mode : Template SoundActionMode
  speed : Option (Template Rat)

/-- `Player` (declared in `core/player.rs`, outside `src/`).  Modelled
from the spec: the Player Profile exposes the set of channel names the
user has enabled. -/
structure Player where
  channels : List String

/-- The error kinds `accept` and `load` can surface, following the
spec's error taxonomy; the source raises them as `anyhow` errors. -/
inductive NError where
  | templateEval (msg : String)
  | unknownChannel (name : String)
  | unknownAsset (name : String)
deriving DecidableEq, Repr

/-- `OptionResultExt::invert` from the `result` crate (outside `src/`):
turns `Option<Result<T, E>>` into `Result<Option<T>, E>`. -/
def invert {ε α : Type} : Option (Except ε α) → Except ε (Option α)
  | none => .ok none
  | some (.ok a) => .ok (some a)
  | some (.error e) => .error e

/-- `Iterator::try_collect` over `Result`s: collects values, returning
the first error if any element is an error. -/
def tryCollect {ε α : Type} : List (Except ε α) → Except ε (List α)
  | [] => .ok []
  | x :: xs =>
    match x with
    | .error e => .error e
    | .ok a => (tryCollect xs).map (fun ys => a :: ys)

/-- `Audio::get_player`: retrieves an audio player by channel name,
failing with the unknown-channel error carrying the name. -/
def Audio.get_player (audio : Audio) (channel : String) : Except NError AudioPlayer :=
  match audio.players.lookup channel with
  | some p => .ok p
  | none => .error (.unknownChannel channel)

/-- `Audio::channel_statuses`: maps this controller's channel names to
whether they are enabled on the player profile. -/
def Audio.channel_statuses (audio : Audio) (player : Player) : List (String × Bool) :=
  audio.players.map (fun x => (x.1, player.channels.contains x.1))

/-- One channel's entry in the Lua introspection table; `position` and
`sound_duration` are `none` exactly when the corresponding key is not
set on the table. -/
structure ChannelEntry where
  is_playing : Bool
  has_sound : Bool
  has_sound_queued : Bool
  position : Option Nat
  sound_duration : Option Nat
deriving DecidableEq, Repr

/-- The entry `Audio::create_audio_table` builds for one player: the
three boolean accessors, and the position and duration in milliseconds
only if `get_playback_position` returns a value. -/
def channelEntry (p : AudioPlayer) : ChannelEntry :=
  { is_playing := p.is_playing
    has_sound := p.has_current_song
    has_sound_queued := p.has_next_song
    position := p.get_playback_position.map (fun x => x.1.as_millis)
    sound_duration := p.get_playback_position.map (fun x => x.2.as_millis) }

/-- `Audio::create_audio_table`: builds the nested Lua table, one entry
per loaded audio player.  Lua-side table-creation errors (`rlua`) are
external and not modelled. -/
def Audio.create_audio_table (audio : Audio) : List (String × ChannelEntry) :=
  audio.players.map (fun x => (x.1, channelEntry x.2))

/-- `Audio::accept_general_actions`: actions requiring that a sound file
is **not** present — an optional seek, then the mode transport verbs;
`Queue`, `Overwrite` and `Passive` fall to the wildcard no-op. -/
def accept_general_actions (_player : AudioPlayer) (seek : Option Duration)
    (mode : SoundActionMode) : List BackendCall :=
  (match seek with
   | some duration => [BackendCall.seek duration]
   | none => []) ++
  (match mode with
   | .Skip => [BackendCall.skip]
   | .Play => [BackendCall.set_playing true]
   | .Pause => [BackendCall.set_playing false]
   | _ => [])

/-- `Audio::accept_mode`: actions requiring both a mode and an
accompanying sound effect.  `Passive` plays only when the active slot is
empty; `Skip`, `Play` and `Pause` fall to the wildcard no-op.  The
backend's transport `Result` is discarded (`let _ = ...`). -/
def accept_mode (player : AudioPlayer) (sfx : Song) (seek : Option Duration)
    (mode : SoundActionMode) : List BackendCall :=
  match mode with
  | .Queue => [BackendCall.play_song_next sfx seek]
  | .Overwrite => [BackendCall.play_song_now sfx seek]
  | .Passive =>
    if !player.has_current_song then [BackendCall.play_song_now sfx seek] else []
  | _ => []

/-- The trailing speed block of `Audio::accept`: if `action.speed` is
present, evaluate it and issue `set_playback_speed`; an evaluation error
propagates, but the calls already issued stay issued. -/
def speedCalls (speed : Option (Template Rat)) (calls : List BackendCall) :
    Except NError Unit × List BackendCall :=
  match speed with
  | none => (.ok (), calls)
  | some s =>
    match s with
    | .error e => (.error (.templateEval e), calls)
    | .ok v => (.ok (), calls ++ [BackendCall.set_playback_speed v])

/-- `Audio::accept`: applies a sound action to a particular channel.
Returns the result together with the trace of backend calls issued
before returning, in issue order. -/
def Audio.accept (audio : Audio) (player : Player) (action : SoundAction) :
    Except NError Unit × List BackendCall :=
  match action.channel with
  | .error e => (.error (.templateEval e), [])
  | .ok channel =>
    match audio.players.lookup channel with
    | none => (.error (.unknownChannel channel), [])
    | some audio_player =>
      if !player.channels.contains channel then (.ok (), [])
      else
        match invert (action.seek.map (Except.map Duration.from_millis)) with
        | .error e => (.error (.templateEval e), [])
        | .ok seek =>
          match action.mode with
          | .error e => (.error (.templateEval e), [])
          | .ok mode =>
            match action.name with
            | none =>
              speedCalls action.speed (accept_general_actions audio_player seek mode)
            | some name =>
              match name with
              | .error e => (.error (.templateEval e), [])
              | .ok sound =>
                match audio.sounds.lookup sound with
                | none => (.error (.unknownAsset sound), [])
                | some sfx =>
                  speedCalls action.speed (accept_mode audio_player sfx seek mode)

/-- Modelled from the spec: the manifest's settings with the optional
`channels` section — an ordered mapping from channel name to a
per-channel configuration whose value is opaque here (`Manifest` lives
in `core/manifest.rs`, outside `src/`). -/
structure Settings where
  channels : Option (List (String × Unit))

/-- Modelled from the spec: the manifest wrapping the settings. -/
structure Manifest where
  settings : Settings

/-- `Audio::load_players`: maps each declared channel to a freshly
constructed backend player, collecting with `try_collect`; `none` when
the manifest declares no channels section.  Backend construction
(`AudioPlayer::new(None)`, outside `src/`) is modelled from the spec as
an oracle giving each channel's construction outcome. -/
def load_players (config : Manifest)
    (newPlayer : String → Except String AudioPlayer) :
    Option (Except String (List (String × AudioPlayer))) :=
  config.settings.channels.map (fun channels =>
    tryCollect (channels.map (fun x =>
      (newPlayer x.1).map (fun p => (x.1, p)))))

/-- `Audio::load_sounds`: decodes every file of the `sounds` directory,
propagating the first decode failure.  The loader's `map_content`
(outside `src/`) is modelled from the spec as the list of
`(asset name, decode outcome)` pairs the asset source yields. -/
def load_sounds (files : List (String × Except String Song)) :
    Except String (List (String × Song)) :=
  tryCollect (files.map (fun x => x.2.map (fun s => (x.1, s))))

/-- `Audio::load`: player-construction failure is suppressed
(`result.ok()`) and surfaces as an absent audio subsystem, while a sound
decode failure propagates as the only error. -/
def Audio.load (config : Manifest)
    (newPlayer : String → Except String AudioPlayer)
    (files : List (String × Except String Song)) :
    Except String (Option Audio) :=
  invert (Option.join ((load_players config newPlayer).map (fun result =>
    result.toOption.map (fun players =>
      (load_sounds files).map (fun sounds => Audio.mk players sounds)))))

/-! ### Helper lemmas about the interpreter's call traces -/

/-- No call emitted by `accept_general_actions` is a play call. -/
theorem accept_general_actions_no_play (p : AudioPlayer) (sk : Option Duration)
    (m : SoundActionMode) (c : BackendCall)
    (hc : c ∈ accept_general_actions p sk m) : c.isPlayCall = false := by
  cases c <;> try rfl
  all_goals
    exfalso
    cases sk <;> cases m <;> simp [accept_general_actions] at hc

/-- A call in the trace produced by the trailing speed block is either
one of the calls already issued or a `set_playback_speed`. -/
theorem mem_speedCalls (sp : Option (Template Rat)) (calls : List BackendCall)
    (c : BackendCall) (hc : c ∈ (speedCalls sp calls).2) :
    c ∈ calls ∨ ∃ v, c = BackendCall.set_playback_speed v := by
  cases sp with
  | none => exact Or.inl hc
  | some s =>
    cases s with
    | error e => exact Or.inl hc
    | ok v =>
      simp only [speedCalls, List.mem_append, List.mem_singleton] at hc
      rcases hc with h | h
      · exact Or.inl h
      · exact Or.inr ⟨v, h⟩

/-! ### C2 -/

/-- C2: an action whose channel template resolves to a key of the
Channel Set that is not among the profile's enabled channels is accepted
with success and an empty backend-call trace: no seek, transport verb,
queue/play call or speed change is attributable to it. -/
theorem accept_mute_respect (audio : Audio) (profile : Player) (action : SoundAction)
    (channel : String) (p : AudioPlayer)
    (hch : action.channel = .ok channel)
    (hkey : audio.players.lookup channel = some p)
    (hmute : profile.channels.contains channel = false) :
    audio.accept profile action = (.ok (), []) := by
  have hmem : channel ∉ profile.channels := by simpa using hmute
  simp [Audio.accept, hch, hkey, hmem]

/-- Witness for C2 at a concrete muted channel. -/
theorem accept_mute_respect_witness :
    (Audio.mk [("sfx", ⟨true, true, false, none⟩)] []).accept ⟨["music"]⟩
      ⟨.ok "sfx", some (.ok "ping"), none, .ok .Overwrite, some (.ok 2)⟩
      = (.ok (), []) :=
  accept_mute_respect _ _ _ "sfx" ⟨true, true, false, none⟩ rfl (by decide) (by decide)

/-! ### C4 -/

/-- C4: an action whose channel template resolves to a string that is
not a key of the Channel Set fails with the unknown-channel error
carrying that name, for every profile (the lookup precedes the mute
check), and the backend-call trace is empty. -/
theorem accept_unknown_channel (audio : Audio) (profile : Player) (action : SoundAction)
    (channel : String)
    (hch : action.channel = .ok channel)
    (hkey : audio.players.lookup channel = none) :
    audio.accept profile action = (.error (.unknownChannel channel), []) := by
  simp [Audio.accept, hch, hkey]

/-- Witness for C4 at a concrete unknown channel, with a profile that
does not enable it. -/
theorem accept_unknown_channel_witness :
    (Audio.mk [("music", ⟨true, true, false, none⟩)] []).accept ⟨["music"]⟩
      ⟨.ok "bogus", none, none, .ok .Play, none⟩
      = (.error (.unknownChannel "bogus"), []) :=
  accept_unknown_channel _ _ _ "bogus" rfl (by decide)

/-! ### C5 -/

/-- C5: an action with a name, targeting an enabled known channel, whose
seek and mode templates resolve but whose asset-name template resolves
to a string that is not a key of the Sound Library, fails with the
unknown-asset error carrying that name and issues no backend call (in
particular no speed change). -/
theorem accept_unknown_asset (audio : Audio) (profile : Player) (action : SoundAction)
    (channel : String) (p : AudioPlayer) (sk : Option Duration) (m : SoundActionMode)
    (sound : String)
    (hch : action.channel = .ok channel)
    (hkey : audio.players.lookup channel = some p)
    (hen : profile.channels.contains channel = true)
    (hseek : invert (action.seek.map (Except.map Duration.from_millis)) = .ok sk)
    (hmode : action.mode = .ok m)
    (hname : action.name = some (.ok sound))
    (hsound : audio.sounds.lookup sound = none) :
    audio.accept profile action = (.error (.unknownAsset sound), []) := by
  have hmem : channel ∈ profile.channels := by simpa using hen
  simp [Audio.accept, hch, hkey, hmem, hseek, hmode, hname, hsound]

/-- Witness for C5 at a concrete missing asset on an enabled channel. -/
theorem accept_unknown_asset_witness :
    (Audio.mk [("music", ⟨true, true, false, none⟩)] [("theme", ⟨1⟩)]).accept ⟨["music"]⟩
      ⟨.ok "music", some (.ok "missing"), none, .ok .Overwrite, some (.ok 2)⟩
      = (.error (.unknownAsset "missing"), []) :=
  accept_unknown_asset _ _ _ "music" ⟨true, true, false, none⟩ none .Overwrite "missing"
    rfl (by decide) (by decide) rfl rfl rfl (by decide)

/-! ### C10 -/

/-- C10: `accept` is not atomic on error — on an enabled known channel,
an action without a name whose speed template fails still issues its
seek and mode-dispatched transport calls to the backend before the
template-evaluation error is returned, and they are not rolled back. -/
theorem accept_not_atomic :
    (Audio.mk [("music", ⟨true, true, false, none⟩)] [("theme", ⟨1⟩)]).accept ⟨["music"]⟩
      ⟨.ok "music", none, some (.ok 5000), .ok .Skip, some (.error "boom")⟩
      = (.error (.templateEval "boom"),
         [BackendCall.seek ⟨5000⟩, BackendCall.skip]) := by
  decide

/-! ### C3 -/

/-- C3: name–mode coupling — when `action.name` is absent, no call in
the trace of that `accept` is `play_song_next` or `play_song_now`; when
`action.name` is present and the mode template resolves to `Skip`,
`Play` or `Pause`, no call in the trace is `skip` or `set_playing`. -/
theorem accept_name_mode_coupling (audio : Audio) (profile : Player)
    (action : SoundAction) :
    (action.name = none →
      ∀ c ∈ (audio.accept profile action).2, c.isPlayCall = false)
    ∧ (∀ nt m, action.name = some nt → action.mode = .ok m →
        (m = .Skip ∨ m = .Play ∨ m = .Pause) →
        ∀ c ∈ (audio.accept profile action).2, c.isTransportVerb = false) := by
  constructor
  · intro hname c hc
    rcases hch : action.channel with e | channel
    · simp [Audio.accept, hch] at hc
    · rcases hkey : audio.players.lookup channel with _ | p
      · simp [Audio.accept, hch, hkey] at hc
      · by_cases hmem : channel ∈ profile.channels
        · rcases hseek : invert (action.seek.map (Except.map Duration.from_millis))
            with e | sk
          · simp [Audio.accept, hch, hkey, hmem, hseek] at hc
          · rcases hmode : action.mode with e | m
            · simp [Audio.accept, hch, hkey, hmem, hseek, hmode] at hc
            · have hacc : audio.accept profile action =
                  speedCalls action.speed (accept_general_actions p sk m) := by
                simp [Audio.accept, hch, hkey, hmem, hseek, hmode, hname]
              rw [hacc] at hc
              rcases mem_speedCalls _ _ _ hc with h | ⟨v, rfl⟩
              · exact accept_general_actions_no_play _ _ _ _ h
              · rfl
        · simp [Audio.accept, hch, hkey, hmem] at hc
  · intro nt m hname hmode hm c hc
    rcases hch : action.channel with e | channel
    · simp [Audio.accept, hch] at hc
    · rcases hkey : audio.players.lookup channel with _ | p
      · simp [Audio.accept, hch, hkey] at hc
      · by_cases hmem : channel ∈ profile.channels
        · rcases hseek : invert (action.seek.map (Except.map Duration.from_millis))
            with e | sk
          · simp [Audio.accept, hch, hkey, hmem, hseek] at hc
          · rcases hnt : nt with e | sound
            · rw [hnt] at hname
              simp [Audio.accept, hch, hkey, hmem, hseek, hmode, hname] at hc
            · rw [hnt] at hname
              rcases hsound : audio.sounds.lookup sound with _ | sfx
              · simp [Audio.accept, hch, hkey, hmem, hseek, hmode, hname, hsound] at hc
              · have hacc : audio.accept profile action =
                    speedCalls action.speed (accept_mode p sfx sk m) := by
                  simp [Audio.accept, hch, hkey, hmem, hseek, hmode, hname, hsound]
                rw [hacc] at hc
                rcases mem_speedCalls _ _ _ hc with h | ⟨v, rfl⟩
                · exfalso
                  rcases hm with rfl | rfl | rfl <;> simp [accept_mode] at h
                · rfl
        · simp [Audio.accept, hch, hkey, hmem] at hc

/-- Witness for C3 at a concrete nameless action and a concrete named
`Pause` action. -/
theorem accept_name_mode_coupling_witness :
    (∀ c ∈ ((Audio.mk [("music", ⟨true, true, false, none⟩)] [("theme", ⟨1⟩)]).accept
        ⟨["music"]⟩ ⟨.ok "music", none, some (.ok 70), .ok .Skip, none⟩).2,
      c.isPlayCall = false)
    ∧ (∀ c ∈ ((Audio.mk [("music", ⟨true, true, false, none⟩)] [("theme", ⟨1⟩)]).accept
        ⟨["music"]⟩ ⟨.ok "music", some (.ok "theme"), none, .ok .Pause, some (.ok 2)⟩).2,
      c.isTransportVerb = false) :=
  ⟨(accept_name_mode_coupling _ _ _).1 rfl,
   (accept_name_mode_coupling _ _ _).2 (.ok "theme") .Pause rfl rfl
     (Or.inr (Or.inr rfl))⟩

/-! ### C6 -/

/-- C6: for an accepted action with a name and resolved mode `Passive`
on an enabled known channel whose asset resolves, the asset is started
with `play_song_now` if and only if the channel's active slot is empty;
when the active slot is occupied, the call issues no playback call at
all, so repeating it stays effect-free. -/
theorem accept_passive_iff_empty (audio : Audio) (profile : Player)
    (action : SoundAction) (channel : String) (p : AudioPlayer)
    (sk : Option Duration) (sound : String) (sfx : Song)
    (hch : action.channel = .ok channel)
    (hkey : audio.players.lookup channel = some p)
    (hen : profile.channels.contains channel = true)
    (hseek : invert (action.seek.map (Except.map Duration.from_millis)) = .ok sk)
    (hmode : action.mode = .ok .Passive)
    (hname : action.name = some (.ok sound))
    (hsound : audio.sounds.lookup sound = some sfx) :
    ((BackendCall.play_song_now sfx sk ∈ (audio.accept profile action).2) ↔
      p.has_current_song = false)
    ∧ (p.has_current_song = true →
        ∀ c ∈ (audio.accept profile action).2, c.isPlayCall = false) := by
  have hmem : channel ∈ profile.channels := by simpa using hen
  have hacc : audio.accept profile action =
      speedCalls action.speed (accept_mode p sfx sk .Passive) := by
    simp [Audio.accept, hch, hkey, hmem, hseek, hmode, hname, hsound]
  constructor
  · rw [hacc]
    rcases hsp : action.speed with _ | s
    · cases hcur : p.has_current_song <;> simp [speedCalls, accept_mode, hcur]
    · cases s <;> cases hcur : p.has_current_song <;>
        simp [speedCalls, accept_mode, hcur]
  · intro hcur c hc
    rw [hacc] at hc
    rcases mem_speedCalls _ _ _ hc with h | ⟨v, rfl⟩
    · simp [accept_mode, hcur] at h
    · rfl

/-- Witness for C6: on a channel whose active slot is occupied, a
`Passive` action issues no playback call. -/
theorem accept_passive_iff_empty_witness :
    (¬ (BackendCall.play_song_now ⟨1⟩ none ∈
        ((Audio.mk [("music", ⟨true, true, false, none⟩)] [("theme", ⟨1⟩)]).accept
          ⟨["music"]⟩ ⟨.ok "music", some (.ok "theme"), none, .ok .Passive, none⟩).2))
    ∧ (∀ c ∈ ((Audio.mk [("music", ⟨true, true, false, none⟩)] [("theme", ⟨1⟩)]).accept
        ⟨["music"]⟩ ⟨.ok "music", some (.ok "theme"), none, .ok .Passive, none⟩).2,
      c.isPlayCall = false) := by
  have h := accept_passive_iff_empty
    (Audio.mk [("music", ⟨true, true, false, none⟩)] [("theme", ⟨1⟩)])
    ⟨["music"]⟩ ⟨.ok "music", some (.ok "theme"), none, .ok .Passive, none⟩
    "music" ⟨true, true, false, none⟩ none "theme" ⟨1⟩
    rfl (by decide) (by decide) rfl rfl rfl (by decide)
  exact ⟨fun hmem => by simpa using h.1.mp hmem, h.2 rfl⟩

/-! ### C7 -/

/-- C7 as stated is false: an action with only `speed` set (name and
seek absent) whose required mode resolves to `Skip` makes `accept` issue
the `skip` transport verb to the backend before the speed change — not
"exactly one `set_playback_speed` call and no transport change". -/
theorem accept_speed_only_cex :
    ((Audio.mk [("music", ⟨true, true, false, none⟩)] [("theme", ⟨1⟩)]).accept
      ⟨["music"]⟩ ⟨.ok "music", none, none, .ok .Skip, some (.ok 2)⟩).2
      = [BackendCall.skip, BackendCall.set_playback_speed 2] := by
  decide

/-- C7 amended: for an action with only `speed` set, accepted on an
enabled known channel, whose mode template resolves to one of `Queue`,
`Overwrite` or `Passive` (the modes that are no-ops without a name),
`accept` succeeds and issues exactly one `set_playback_speed` call and
nothing else; if the mode resolves to `Skip`, `Play` or `Pause`, that
transport verb is additionally dispatched before the speed change. -/
theorem accept_speed_only (audio : Audio) (profile : Player) (action : SoundAction)
    (channel : String) (p : AudioPlayer) (v : Rat) (m : SoundActionMode)
    (hch : action.channel = .ok channel)
    (hkey : audio.players.lookup channel = some p)
    (hen : profile.channels.contains channel = true)
    (hname : action.name = none)
    (hseek : action.seek = none)
    (hspeed : action.speed = some (.ok v))
    (hmode : action.mode = .ok m) :
    ((m = .Queue ∨ m = .Overwrite ∨ m = .Passive) →
      audio.accept profile action = (.ok (), [BackendCall.set_playback_speed v]))
    ∧ (m = .Skip →
      audio.accept profile action =
        (.ok (), [BackendCall.skip, BackendCall.set_playback_speed v]))
    ∧ (m = .Play →
      audio.accept profile action =
        (.ok (), [BackendCall.set_playing true, BackendCall.set_playback_speed v]))
    ∧ (m = .Pause →
      audio.accept profile action =
        (.ok (), [BackendCall.set_playing false, BackendCall.set_playback_speed v])) := by
  have hmem : channel ∈ profile.channels := by simpa using hen
  refine ⟨?_, ?_, ?_, ?_⟩
  · intro hm
    rcases hm with rfl | rfl | rfl <;>
      simp [Audio.accept, hch, hkey, hmem, hname, hseek, hspeed, hmode, invert,
        accept_general_actions, speedCalls]
  all_goals
    rintro rfl
    simp [Audio.accept, hch, hkey, hmem, hname, hseek, hspeed, hmode, invert,
      accept_general_actions, speedCalls]

/-- Witness for the amended C7 at concrete speed-only actions with
modes `Queue` and `Skip`. -/
theorem accept_speed_only_witness :
    (Audio.mk [("music", ⟨true, true, false, none⟩)] [("theme", ⟨1⟩)]).accept
      ⟨["music"]⟩ ⟨.ok "music", none, none, .ok .Queue, some (.ok 2)⟩
      = (.ok (), [BackendCall.set_playback_speed 2])
    ∧ (Audio.mk [("music", ⟨true, true, false, none⟩)] [("theme", ⟨1⟩)]).accept
      ⟨["music"]⟩ ⟨.ok "music", none, none, .ok .Skip, some (.ok 2)⟩
      = (.ok (), [BackendCall.skip, BackendCall.set_playback_speed 2]) :=
  ⟨(accept_speed_only _ _ _ "music" ⟨true, true, false, none⟩ 2 .Queue
      rfl (by decide) (by decide) rfl rfl rfl rfl).1 (Or.inl rfl),
   (accept_speed_only _ _ _ "music" ⟨true, true, false, none⟩ 2 .Skip
      rfl (by decide) (by decide) rfl rfl rfl rfl).2.1 rfl⟩

/-! ### C8 -/

/-- C8: the snapshot contains, for each channel of the Channel Set, an
entry whose `is_playing`, `has_sound` and `has_sound_queued` equal the
backend accessors at capture, and whose `position` and `sound_duration`
keys are present exactly when `get_playback_position` returns a value,
holding its components in integer milliseconds — never a substituted
zero. -/
theorem create_audio_table_faithful (audio : Audio) (channel : String)
    (p : AudioPlayer) (h : (channel, p) ∈ audio.players) :
    (channel, channelEntry p) ∈ audio.create_audio_table
    ∧ (channelEntry p).is_playing = p.is_playing
    ∧ (channelEntry p).has_sound = p.has_current_song
    ∧ (channelEntry p).has_sound_queued = p.has_next_song
    ∧ ((channelEntry p).position.isSome ↔ p.get_playback_position.isSome)
    ∧ ((channelEntry p).sound_duration.isSome ↔ p.get_playback_position.isSome)
    ∧ (∀ pos dur, p.get_playback_position = some (pos, dur) →
        (channelEntry p).position = some pos.as_millis
        ∧ (channelEntry p).sound_duration = some dur.as_millis) := by
  refine ⟨?_, rfl, rfl, rfl, ?_, ?_, ?_⟩
  · exact List.mem_map_of_mem (fun x => (x.1, channelEntry x.2)) h
  · simp [channelEntry]
  · simp [channelEntry]
  · intro pos dur hp
    simp [channelEntry, hp]

/-- Witness for C8 at a concrete channel with a playback position. -/
theorem create_audio_table_faithful_witness :
    (("music", channelEntry ⟨true, true, false, some (⟨70⟩, ⟨12000⟩)⟩) ∈
      (Audio.mk [("music", ⟨true, true, false, some (⟨70⟩, ⟨12000⟩)⟩)]
        []).create_audio_table)
    ∧ (channelEntry ⟨true, true, false, some (⟨70⟩, ⟨12000⟩)⟩).position = some 70
    ∧ (channelEntry ⟨true, true, false, some (⟨70⟩, ⟨12000⟩)⟩).sound_duration
        = some 12000 := by
  have h := create_audio_table_faithful
    (Audio.mk [("music", ⟨true, true, false, some (⟨70⟩, ⟨12000⟩)⟩)] [])
    "music" ⟨true, true, false, some (⟨70⟩, ⟨12000⟩)⟩ (by decide)
  exact ⟨h.1, (h.2.2.2.2.2.2 ⟨70⟩ ⟨12000⟩ rfl).1, (h.2.2.2.2.2.2 ⟨70⟩ ⟨12000⟩ rfl).2⟩

/-! ### C9 -/

/-- C9: `channel_statuses` pairs the channels of the Channel Set, in its
native iteration order, with whether the profile enables them; under the
map's key-uniqueness invariant every channel gets exactly one pair (so
there are no ties to break by name). -/
theorem channel_statuses_spec (audio : Audio) (profile : Player)
    (hnodup : (audio.players.map Prod.fst).Nodup) :
    (audio.channel_statuses profile).map Prod.fst = audio.players.map Prod.fst
    ∧ (∀ x ∈ audio.channel_statuses profile,
        x.2 = profile.channels.contains x.1)
    ∧ (∀ channel, channel ∈ audio.players.map Prod.fst →
        ((audio.channel_statuses profile).map Prod.fst).count channel = 1) := by
  have hfst : (audio.channel_statuses profile).map Prod.fst
      = audio.players.map Prod.fst := by
    simp [Audio.channel_statuses, List.map_map]
  refine ⟨hfst, ?_, ?_⟩
  · intro x hx
    simp only [Audio.channel_statuses, List.mem_map] at hx
    obtain ⟨a, _, rfl⟩ := hx
    rfl
  · intro channel hchan
    rw [hfst]
    exact List.count_eq_one_of_mem hnodup hchan

/-- Witness for C9 on a concrete two-channel set. -/
theorem channel_statuses_spec_witness :
    ((Audio.mk [("music", ⟨true, true, false, none⟩), ("sfx", ⟨false, false, false, none⟩)]
        []).channel_statuses ⟨["music"]⟩).map Prod.fst = ["music", "sfx"]
    ∧ (∀ x ∈ (Audio.mk [("music", ⟨true, true, false, none⟩),
          ("sfx", ⟨false, false, false, none⟩)] []).channel_statuses ⟨["music"]⟩,
        x.2 = (Player.mk ["music"]).channels.contains x.1) := by
  have h := channel_statuses_spec
    (Audio.mk [("music", ⟨true, true, false, none⟩), ("sfx", ⟨false, false, false, none⟩)] [])
    ⟨["music"]⟩ (by decide)
  exact ⟨h.1, h.2.1⟩

/-! ### Helper lemmas about `tryCollect`, for the loader -/

/-- `tryCollect` fails whenever some element is an error. -/
theorem tryCollect_error_of_mem {ε α : Type} {l : List (Except ε α)}
    {x : Except ε α} (hx : x ∈ l) {e : ε} (hbad : x = .error e) :
    ∃ f, tryCollect l = .error f := by
  induction l with
  | nil => cases hx
  | cons y ys ih =>
    rcases List.mem_cons.mp hx with rfl | hmem
    · subst hbad
      exact ⟨e, rfl⟩
    · cases y with
      | error f => exact ⟨f, rfl⟩
      | ok a =>
        obtain ⟨f, hf⟩ := ih hmem
        exact ⟨f, by simp [tryCollect, hf, Except.map]⟩

/-- `tryCollect` succeeds when every element is a success. -/
theorem tryCollect_ok_of_all {ε α : Type} {l : List (Except ε α)}
    (h : ∀ x ∈ l, ∃ a, x = .ok a) : ∃ ys, tryCollect l = .ok ys := by
  induction l with
  | nil => exact ⟨[], rfl⟩
  | cons y ys ih =>
    obtain ⟨a, ha⟩ := h y (List.mem_cons_self y ys)
    obtain ⟨t, ht⟩ := ih (fun x hx => h x (List.mem_cons_of_mem _ hx))
    subst ha
    exact ⟨a :: t, by simp [tryCollect, ht, Except.map]⟩

/-- A successful `tryCollect` collects exactly the wrapped elements. -/
theorem tryCollect_ok_elim {ε α : Type} {l : List (Except ε α)} {ys : List α}
    (h : tryCollect l = .ok ys) : l = ys.map Except.ok := by
  induction l generalizing ys with
  | nil =>
    simp only [tryCollect, Except.ok.injEq] at h
    simp [← h]
  | cons x xs ih =>
    cases x with
    | error e => simp [tryCollect] at h
    | ok a =>
      rcases ht : tryCollect xs with f | t
      · simp [tryCollect, ht, Except.map] at h
      · simp only [tryCollect, ht, Except.map, Except.ok.injEq] at h
        simp [← h, ih ht]

/-- When `load_players`' collection succeeds, the collected pairs carry
exactly the declared channel names, in declaration order. -/
theorem load_players_keys (newPlayer : String → Except String AudioPlayer)
    (cs : List (String × Unit)) (players : List (String × AudioPlayer))
    (h : cs.map (fun x => (newPlayer x.1).map (fun p => (x.1, p)))
      = players.map Except.ok) :
    players.map Prod.fst = cs.map Prod.fst := by
  induction cs generalizing players with
  | nil =>
    cases players with
    | nil => rfl
    | cons p ps => simp at h
  | cons x xs ih =>
    cases players with
    | nil => simp at h
    | cons p ps =>
      simp only [List.map_cons, List.cons.injEq] at h
      obtain ⟨h1, h2⟩ := h
      rcases hq : newPlayer x.1 with e | q
      · rw [hq] at h1
        simp [Except.map] at h1
      · rw [hq] at h1
        simp only [Except.map, Except.ok.injEq] at h1
        simp [List.map_cons, ih ps h2, ← h1]

/-- When `load_sounds` succeeds, the input files are exactly the decoded
sounds: each yields its name paired with a successful decode. -/
theorem load_sounds_files (files : List (String × Except String Song))
    (sounds : List (String × Song))
    (h : files.map (fun x => x.2.map (fun s => (x.1, s))) = sounds.map Except.ok) :
    files = sounds.map (fun y => (y.1, Except.ok y.2)) := by
  induction files generalizing sounds with
  | nil =>
    cases sounds with
    | nil => rfl
    | cons y t => simp at h
  | cons x xs ih =>
    cases sounds with
    | nil => simp at h
    | cons y t =>
      simp only [List.map_cons, List.cons.injEq] at h
      obtain ⟨h1, h2⟩ := h
      rcases hs : x.2 with e | s
      · rw [hs] at h1
        simp [Except.map] at h1
      · rw [hs] at h1
        simp only [Except.map, Except.ok.injEq] at h1
        have hx : x = (y.1, Except.ok y.2) := by
          rw [← h1, ← hs]
        simp [List.map_cons, ← hx, ih t h2]

/-! ### C1 -/

/-- C1: with a fixed player-construction oracle and asset directory,
`load` returns `Ok(None)` when the configuration declares no channels
section or some declared channel's player fails to construct; it returns
`Err` exactly when all players construct and decoding the sounds fails;
and otherwise it returns `Ok(Some(audio))` holding one player per
declared channel name (in declaration order) and exactly the decoded
assets. -/
theorem audio_load_spec (config : Manifest)
    (newPlayer : String → Except String AudioPlayer)
    (files : List (String × Except String Song)) :
    (config.settings.channels = none →
      Audio.load config newPlayer files = .ok none)
    ∧ (∀ cs, config.settings.channels = some cs →
        ((∃ x ∈ cs, ∃ e, newPlayer x.1 = .error e) →
          Audio.load config newPlayer files = .ok none)
        ∧ ((∀ x ∈ cs, ∃ p, newPlayer x.1 = .ok p) →
            (∀ e, load_sounds files = .error e →
              Audio.load config newPlayer files = .error e)
            ∧ (∀ sounds, load_sounds files = .ok sounds →
                ∃ players,
                  Audio.load config newPlayer files = .ok (some (Audio.mk players sounds))
                  ∧ players.map Prod.fst = cs.map Prod.fst
                  ∧ files = sounds.map (fun y => (y.1, Except.ok y.2))))) := by
  constructor
  · intro hnone
    simp [Audio.load, load_players, hnone, invert]
  · intro cs hcs
    constructor
    · rintro ⟨x, hx, e, he⟩
      have hmem : Except.error e ∈
          cs.map (fun x => (newPlayer x.1).map (fun p => (x.1, p))) :=
        List.mem_map.mpr ⟨x, hx, by rw [he]; rfl⟩
      obtain ⟨f, hf⟩ := tryCollect_error_of_mem hmem rfl
      have hlp : load_players config newPlayer = some (Except.error f) := by
        unfold load_players
        rw [hcs, Option.map_some', hf]
      unfold Audio.load
      rw [hlp]
      simp [invert, Except.toOption, Except.map]
    · intro hall
      have hok : ∃ players,
          tryCollect (cs.map (fun x => (newPlayer x.1).map (fun p => (x.1, p))))
            = .ok players := by
        apply tryCollect_ok_of_all
        intro z hz
        obtain ⟨x, hx, rfl⟩ := List.mem_map.mp hz
        obtain ⟨p, hp⟩ := hall x hx
        exact ⟨(x.1, p), by rw [hp]; rfl⟩
      obtain ⟨players, hplayers⟩ := hok
      have hlp : load_players config newPlayer = some (Except.ok players) := by
        unfold load_players
        rw [hcs, Option.map_some', hplayers]
      constructor
      · intro e he
        unfold Audio.load
        rw [hlp]
        simp [he, invert, Except.toOption, Except.map]
      · intro sounds hsounds
        refine ⟨players, ?_, ?_, ?_⟩
        · unfold Audio.load
          rw [hlp]
          simp [hsounds, invert, Except.toOption, Except.map]
        · exact load_players_keys newPlayer cs players (tryCollect_ok_elim hplayers)
        · exact load_sounds_files files sounds (tryCollect_ok_elim hsounds)

/-- Witness for C1 exercising all four branches at concrete inputs: no
channels section; a failing player; a failing decode; and a full
success. -/
theorem audio_load_spec_witness :
    Audio.load ⟨⟨none⟩⟩ (fun _ => .ok ⟨false, false, false, none⟩)
        [("theme", .ok ⟨1⟩)] = .ok none
    ∧ Audio.load ⟨⟨some [("music", ())]⟩⟩ (fun _ => .error "no device")
        [("theme", .ok ⟨1⟩)] = .ok none
    ∧ Audio.load ⟨⟨some [("music", ())]⟩⟩ (fun _ => .ok ⟨false, false, false, none⟩)
        [("theme", .error "bad file")] = .error "bad file"
    ∧ ∃ players,
        Audio.load ⟨⟨some [("music", ())]⟩⟩ (fun _ => .ok ⟨false, false, false, none⟩)
          [("theme", .ok ⟨1⟩)] = .ok (some (Audio.mk players [("theme", ⟨1⟩)]))
        ∧ players.map Prod.fst = ["music"] := by
  refine ⟨?_, ?_, ?_, ?_⟩
  · exact (audio_load_spec _ _ _).1 rfl
  · exact ((audio_load_spec _ _ _).2 [("music", ())] rfl).1
      ⟨("music", ()), by decide, "no device", rfl⟩
  · exact (((audio_load_spec _ _ _).2 [("music", ())] rfl).2
      (fun x _ => ⟨⟨false, false, false, none⟩, rfl⟩)).1 "bad file" rfl
  · obtain ⟨players, h1, h2, _⟩ := (((audio_load_spec ⟨⟨some [("music", ())]⟩⟩
      (fun _ => .ok ⟨false, false, false, none⟩) [("theme", .ok ⟨1⟩)]).2
        [("music", ())] rfl).2
      (fun x _ => ⟨⟨false, false, false, none⟩, rfl⟩)).2 [("theme", ⟨1⟩)] rfl
    exact ⟨players, h1, by simpa using h2⟩

end Nage
